import Mathlib

/-! Verification model of the AWS cleanup backend (`backend/main.py`).
The backend exposes a scanner (`POST /list`) that iterates the cross
product of regions and resource types, normalizes provider records and
applies scope/tag filtering, and a deletion orchestrator (`POST /delete`)
that dispatches each requested item to a type-specific multi-step
deletion workflow, collecting per-item outcomes.

Provider (boto3) calls are modelled as pure oracles.  A call either
returns a value, raises a client error (`botocore.exceptions.ClientError`)
or raises any other exception; the code distinguishes exactly these three
cases, so the model does too. -/

/-- Result of a provider call during scanning: `client` models a raised
`ClientError`, `other` models any other raised exception. -/
inductive PErr where
  | client (msg : String)
  | other (msg : String)
deriving DecidableEq, Repr

/-- A scanner-side provider call either yields a value or raises. -/
abbrev PResult (α : Type) := Except PErr α

/-- Tag mappings are built by Python dict comprehensions over provider tag
lists; we keep the raw association list and give lookups dict semantics
(membership is key occurrence, lookup returns the last binding, matching
the last-wins behaviour of a dict comprehension). -/
abbrev Tags := List (String × String)

/-- Python `key in tags` for the dict built from the tag list. -/
def tagsContains (ts : Tags) (k : String) : Bool :=
  ts.any (fun t => t.1 == k)

/-- Python `tags.get(key)` for the dict built from the tag list. -/
def tagsGet (ts : Tags) (k : String) : Option String :=
  ((ts.filter (fun t => t.1 == k)).getLast?).map (fun t => t.2)

/-- One entry of `describe_instances`' flattened Reservations×Instances
nesting (`main.py` lines 85-87): instance id, tags and lifecycle state. -/
structure Ec2Instance where
  instanceId : String
  tags : Tags
  state : Option String
deriving DecidableEq, Repr

/-- One entry of `describe_db_instances` (`main.py` lines 143-147). -/
structure RdsDb where
  dbInstanceIdentifier : String
  dbInstanceArn : String
  status : Option String
deriving DecidableEq, Repr

/-- One entry of `list_users` (`main.py` lines 171-176). -/
structure IamUser where
  userName : String
deriving DecidableEq, Repr

/-- The scanner's outward-call surface, as a deterministic oracle.
`describeInstances`/`describeDbInstances` are keyed by region;
`listBuckets`/`listUsers` use global clients; `getBucketTagging` is keyed
by bucket name, `listTagsForResource` by ARN, `listUserTags` by user
name; `getCallerIdentity` models `sts.get_caller_identity()["Account"]`. -/
structure Provider where
  describeInstances : String → PResult (List Ec2Instance)
  listBuckets : PResult (List String)
  getBucketTagging : String → PResult Tags
  describeDbInstances : String → PResult (List RdsDb)
  listTagsForResource : String → PResult Tags
  listUsers : PResult (List IamUser)
  listUserTags : String → PResult Tags
  getCallerIdentity : PResult String

/-- `ListRequest` (`main.py` lines 27-33). -/
structure ListRequest where
  filter_scope : String
  account_ids : Option (List String) := none
  tag_key : Option String := none
  tag_value : Option String := none
  resource_types : Option (List String) := none
  regions : Option (List String) := none
deriving DecidableEq, Repr

/-- Normalized scan output record (the dict appended to `matched`). -/
structure ResourceRecord where
  id : String
  resource_type : String
  region : String
  account_id : String
  tags : Tags
  state : Option String := none
deriving DecidableEq, Repr

/-- `_default_regions` (`main.py` lines 45-51). -/
def _default_regions : List String :=
  ["us-east-1", "us-east-2", "us-west-1", "us-west-2",
   "eu-west-1", "eu-west-2", "eu-central-1",
   "ap-south-1", "ap-southeast-1", "ap-southeast-2"]

/-- Default resource-type list (`main.py` line 75). -/
def default_resource_types : List String :=
  ["ec2:instance", "s3:bucket", "rds:db", "iam:user"]

/-- Python `xs or default` on an optional list: `None` and the empty list
are falsy, so both fall back to the default. -/
def pyOrList (v : Option (List String)) (d : List String) : List String :=
  match v with
  | some (x :: xs) => x :: xs
  | _ => d

/-- The scope/tag filter decision applied to one record's tags, shared
verbatim by all four branches (`main.py` lines 89-91, 123-125, 149-151,
181-183).  Python evaluates `payload.tag_key and payload.tag_key in tags
and (payload.tag_value is None or tags.get(payload.tag_key) ==
payload.tag_value)`: note that `payload.tag_key` is tested for
truthiness, so an empty-string key behaves like an absent one. -/
def keepRecord (pl : ListRequest) (ts : Tags) : Bool :=
  if pl.filter_scope = "tag" then
    match pl.tag_key with
    | none => false
    | some k =>
      (k != "") && tagsContains ts k &&
        (pl.tag_value.isNone || (tagsGet ts k == pl.tag_value))
  else true

/-- `try: ... get_bucket_tagging / list_user_tags ... except ClientError:
pass` (`main.py` lines 117-121 and 175-179): a client error degrades the
tags to the empty dict; any other exception propagates. -/
def liftTags (r : PResult Tags) : PResult Tags :=
  match r with
  | .ok ts => .ok ts
  | .error (.client _) => .ok []
  | .error (.other m) => .error (.other m)

/-- Normalization of one EC2 instance (`main.py` lines 87-108): per-record
caller-identity lookup, then the record dict. -/
def mkEc2 (p : Provider) (region : String) (inst : Ec2Instance) : PResult ResourceRecord :=
  match p.getCallerIdentity with
  | .error e => .error e
  | .ok account =>
    .ok ⟨inst.instanceId, "ec2:instance", region, account, inst.tags, inst.state⟩

/-- Normalization of one S3 bucket (`main.py` lines 114-140): best-effort
tag fetch, then caller identity, then the record dict (no state field). -/
def mkS3 (p : Provider) (region : String) (name : String) : PResult ResourceRecord :=
  match liftTags (p.getBucketTagging name) with
  | .error e => .error e
  | .ok tags =>
    match p.getCallerIdentity with
    | .error e => .error e
    | .ok account => .ok ⟨name, "s3:bucket", region, account, tags, none⟩

/-- Normalization of one RDS instance (`main.py` lines 144-168): the tag
fetch by ARN is NOT wrapped in a per-record try/except, so any failure
propagates to the request level. -/
def mkRds (p : Provider) (region : String) (dbi : RdsDb) : PResult ResourceRecord :=
  match p.listTagsForResource dbi.dbInstanceArn with
  | .error e => .error e
  | .ok tags =>
    match p.getCallerIdentity with
    | .error e => .error e
    | .ok account =>
      .ok ⟨dbi.dbInstanceIdentifier, "rds:db", region, account, tags, dbi.status⟩

/-- Normalization of one IAM user (`main.py` lines 172-198): best-effort
tag fetch, then caller identity, then the record dict (no state field). -/
def mkIam (p : Provider) (region : String) (u : IamUser) : PResult ResourceRecord :=
  match liftTags (p.listUserTags u.userName) with
  | .error e => .error e
  | .ok tags =>
    match p.getCallerIdentity with
    | .error e => .error e
    | .ok account => .ok ⟨u.userName, "iam:user", region, account, tags, none⟩

/-- The per-raw-record loop body shared by all four branches: run the
record's normalization effects, then append it iff the scope/tag filter
keeps it.  Effects run before the filter check, exactly as in the source
(identity and tag fetches happen even for records that are then
filtered out). -/
def emitAll (pl : ListRequest) (mk : α → PResult ResourceRecord) :
    List α → PResult (List ResourceRecord)
  | [] => .ok []
  | x :: xs =>
    match mk x with
    | .error e => .error e
    | .ok r =>
      match emitAll pl mk xs with
      | .error e => .error e
      | .ok rest => .ok (if keepRecord pl r.tags then r :: rest else rest)

/-- Like `emitAll` but without the filter: the normalized records the
handler's lister produced for one (region, type) combination. -/
def collectAll (mk : α → PResult ResourceRecord) :
    List α → PResult (List ResourceRecord)
  | [] => .ok []
  | x :: xs =>
    match mk x with
    | .error e => .error e
    | .ok r =>
      match collectAll mk xs with
      | .error e => .error e
      | .ok rest => .ok (r :: rest)

/-- One (region, resource-type) iteration of the scan loop (`main.py`
lines 82-201): dispatch on the type identifier; an unknown identifier is
skipped (`continue`, lines 199-201), contributing nothing. -/
def scanOne (p : Provider) (pl : ListRequest) (region rtype : String) :
    PResult (List ResourceRecord) :=
  if rtype = "ec2:instance" then
    match p.describeInstances region with
    | .error e => .error e
    | .ok insts => emitAll pl (mkEc2 p region) insts
  else if rtype = "s3:bucket" then
    match p.listBuckets with
    | .error e => .error e
    | .ok buckets => emitAll pl (mkS3 p region) buckets
  else if rtype = "rds:db" then
    match p.describeDbInstances region with
    | .error e => .error e
    | .ok dbs => emitAll pl (mkRds p region) dbs
  else if rtype = "iam:user" then
    match p.listUsers with
    | .error e => .error e
    | .ok users => emitAll pl (mkIam p region) users
  else .ok []

/-- The records a (region, type) iteration lists before filtering. -/
def listRawOne (p : Provider) (region rtype : String) :
    PResult (List ResourceRecord) :=
  if rtype = "ec2:instance" then
    match p.describeInstances region with
    | .error e => .error e
    | .ok insts => collectAll (mkEc2 p region) insts
  else if rtype = "s3:bucket" then
    match p.listBuckets with
    | .error e => .error e
    | .ok buckets => collectAll (mkS3 p region) buckets
  else if rtype = "rds:db" then
    match p.describeDbInstances region with
    | .error e => .error e
    | .ok dbs => collectAll (mkRds p region) dbs
  else if rtype = "iam:user" then
    match p.listUsers with
    | .error e => .error e
    | .ok users => collectAll (mkIam p region) users
  else .ok []

/-- Inner loop over resource types for one region (`main.py` line 81). -/
def scanTypes (p : Provider) (pl : ListRequest) (region : String) :
    List String → PResult (List ResourceRecord)
  | [] => .ok []
  | t :: ts =>
    match scanOne p pl region t with
    | .error e => .error e
    | .ok recs =>
      match scanTypes p pl region ts with
      | .error e => .error e
      | .ok rest => .ok (recs ++ rest)

/-- Outer loop over regions (`main.py` line 80). -/
def scanRegions (p : Provider) (pl : ListRequest) (rtypes : List String) :
    List String → PResult (List ResourceRecord)
  | [] => .ok []
  | r :: rs =>
    match scanTypes p pl r rtypes with
    | .error e => .error e
    | .ok recs =>
      match scanRegions p pl rtypes rs with
      | .error e => .error e
      | .ok rest => .ok (recs ++ rest)

/-- FastAPI `HTTPException` payload. -/
structure HTTPException where
  status_code : Nat
  detail : String
deriving DecidableEq, Repr

/-- `/list` success body (`main.py` line 207). -/
structure ScanResponse where
  count : Nat
  resources : List ResourceRecord
deriving DecidableEq, Repr

/-- `except ClientError → 400, except Exception → 500` with the raised
message as detail (`main.py` lines 202-205). -/
def httpOfPErr : PErr → HTTPException
  | .client m => ⟨400, m⟩
  | .other m => ⟨500, m⟩

/-- `list_resources` (`main.py` lines 71-207): resolve effective regions
and resource types with Python `or` defaults, run the nested loops, map
a raised provider error to an HTTP failure, else return count+records. -/
def list_resources (p : Provider) (pl : ListRequest) :
    Except HTTPException ScanResponse :=
  match scanRegions p pl (pyOrList pl.resource_types default_resource_types)
      (pyOrList pl.regions _default_regions) with
  | .ok matched => .ok ⟨matched.length, matched⟩
  | .error e => .error (httpOfPErr e)

/-- Whether a type identifier is one of the four supported kinds. -/
def isSupported (t : String) : Bool :=
  decide (t = "ec2:instance" ∨ t = "s3:bucket" ∨ t = "rds:db" ∨ t = "iam:user")

/-- `Except.isOk` as a local helper. -/
def isOkE : Except ε α → Bool
  | .ok _ => true
  | .error _ => false

/-- Whether a scanner provider call raised a client error. -/
def isClientE : PResult α → Bool
  | .error (.client _) => true
  | _ => false

/-! Deletion orchestrator model (`main.py` lines 210-263).  Each item's
workflow is a sequence of provider calls; a `ClientError` raised by a
step is caught by the per-item `except ClientError` and recorded, any
other exception escapes to the request-level `except Exception` handler
(HTTP 500).  We record the calls an item's workflow actually attempts as
an action trace, to state the ordering claims. -/

/-- Result of one deletion-side provider call: success, a raised
`ClientError`, or any other raised exception. -/
inductive CallResult (α : Type) where
  | ok (a : α)
  | clientErr (msg : String)
  | fatal (msg : String)
deriving DecidableEq, Repr

/-- One element of `DeleteRequest.resources`: a dict read with `.get`,
so every field may be absent (`main.py` lines 216-218). -/
structure DelItem where
  resource_type : Option String := none
  id : Option String := none
  region : Option String := none
deriving DecidableEq, Repr

/-- A provider call attempted by a deletion workflow, with the arguments
the source passes. -/
inductive DelAction where
  | terminateInstances (region id : Option String)
  | purgeObjects (bucket : Option String)
  | purgeVersions (bucket : Option String)
  | deleteBucket (bucket : Option String)
  | deleteDbInstance (region id : Option String)
  | listAccessKeys (user : Option String)
  | deleteAccessKey (user keyId : Option String)
  | listAttachedUserPolicies (user : Option String)
  | detachUserPolicy (user policyArn : Option String)
  | listGroupsForUser (user : Option String)
  | removeUserFromGroup (user group : Option String)
  | deleteUser (user : Option String)
deriving DecidableEq, Repr

/-- The deletion-side provider oracle.  `purgeObjects` models
`bucket.objects.all().delete()`, `purgeVersions` models
`bucket.object_versions.delete()`; the IAM list calls return the element
keys the source extracts with `.get` (`AccessKeyId`, `PolicyArn`,
`GroupName`), each possibly absent. -/
structure DelProvider where
  terminateInstances : Option String → Option String → CallResult Unit
  purgeObjects : Option String → CallResult Unit
  purgeVersions : Option String → CallResult Unit
  deleteBucket : Option String → CallResult Unit
  deleteDbInstance : Option String → Option String → CallResult Unit
  listAccessKeys : Option String → CallResult (List (Option String))
  deleteAccessKey : Option String → Option String → CallResult Unit
  listAttachedUserPolicies : Option String → CallResult (List (Option String))
  detachUserPolicy : Option String → Option String → CallResult Unit
  listGroupsForUser : Option String → CallResult (List (Option String))
  removeUserFromGroup : Option String → Option String → CallResult Unit
  deleteUser : Option String → CallResult Unit

/-- How one item's workflow ended: success with a status code, a caught
`ClientError` (or the unsupported-type outcome) recorded per item, or an
uncaught exception that aborts the whole request. -/
inductive ItemStep where
  | succeeded (status : String)
  | errored (msg : String)
  | fatalRaised (msg : String)
deriving DecidableEq, Repr

/-- Intermediate outcome of a sequence of workflow steps. -/
inductive SeqOut where
  | done
  | errC (msg : String)
  | errF (msg : String)
deriving DecidableEq, Repr

/-- A partial workflow: how it ended so far and the calls it attempted. -/
structure Phase where
  out : SeqOut
  trace : List DelAction
deriving DecidableEq, Repr

/-- One provider call as a workflow step: the call is attempted (so it is
always in the trace) and its outcome classified. -/
def callPhase (c : CallResult α) (act : DelAction) : Phase :=
  match c with
  | .ok _ => ⟨.done, [act]⟩
  | .clientErr m => ⟨.errC m, [act]⟩
  | .fatal m => ⟨.errF m, [act]⟩

/-- Sequential composition: run `b` only when `a` completed, mirroring
straight-line Python statements inside one try block (the first raised
exception skips everything after it). -/
def pchain (a b : Phase) : Phase :=
  match a.out with
  | .done => ⟨b.out, a.trace ++ b.trace⟩
  | o => ⟨o, a.trace⟩

/-- A `for x in xs:` loop whose body is one provider call per element. -/
def loopPhase (f : α → CallResult Unit) (act : α → DelAction) :
    List α → Phase
  | [] => ⟨.done, []⟩
  | x :: xs => pchain (callPhase (f x) (act x)) (loopPhase f act xs)

/-- The list a deletion-side list call produced when it succeeded (empty
when it raised; in that case the phases after it never run). -/
def okList (c : CallResult (List α)) : List α :=
  match c with
  | .ok l => l
  | _ => []

/-- S3 bucket workflow body (`main.py` lines 229-233): purge current
objects, purge object versions, then delete the bucket container. -/
def s3Phase (p : DelProvider) (rid : Option String) : Phase :=
  pchain (callPhase (p.purgeObjects rid) (.purgeObjects rid))
    (pchain (callPhase (p.purgeVersions rid) (.purgeVersions rid))
      (callPhase (p.deleteBucket rid) (.deleteBucket rid)))

/-- IAM user workflow body (`main.py` lines 247-254): delete every access
key, detach every attached managed policy, remove the user from every
group, then delete the user. -/
def iamPhase (p : DelProvider) (rid : Option String) : Phase :=
  pchain (callPhase (p.listAccessKeys rid) (.listAccessKeys rid))
    (pchain (loopPhase (p.deleteAccessKey rid) (DelAction.deleteAccessKey rid)
        (okList (p.listAccessKeys rid)))
      (pchain (callPhase (p.listAttachedUserPolicies rid) (.listAttachedUserPolicies rid))
        (pchain (loopPhase (p.detachUserPolicy rid) (DelAction.detachUserPolicy rid)
            (okList (p.listAttachedUserPolicies rid)))
          (pchain (callPhase (p.listGroupsForUser rid) (.listGroupsForUser rid))
            (pchain (loopPhase (p.removeUserFromGroup rid) (DelAction.removeUserFromGroup rid)
                (okList (p.listGroupsForUser rid)))
              (callPhase (p.deleteUser rid) (.deleteUser rid)))))))

/-- Close a workflow body under its per-item try/except: completion
yields the handler's status string, a caught `ClientError` yields the
per-item error outcome, anything else escapes the item. -/
def phaseOut (okStatus : String) (ph : Phase) : ItemStep × List DelAction :=
  match ph.out with
  | .done => (.succeeded okStatus, ph.trace)
  | .errC m => (.errored m, ph.trace)
  | .errF m => (.fatalRaised m, ph.trace)

/-- Dispatch one deletion item to its type-specific workflow (`main.py`
lines 215-259), returning the item's outcome and its attempted calls.
A `resource_type` matching none of the four identifiers (including an
absent one) takes the final `else` (lines 258-259). -/
def runItem (p : DelProvider) (it : DelItem) : ItemStep × List DelAction :=
  match it.resource_type with
  | none => (.errored "unsupported resource type", [])
  | some rt =>
    if rt = "ec2:instance" then
      phaseOut "terminated"
        (callPhase (p.terminateInstances it.region it.id) (.terminateInstances it.region it.id))
    else if rt = "s3:bucket" then
      phaseOut "deleted" (s3Phase p it.id)
    else if rt = "rds:db" then
      phaseOut "deletion-started"
        (callPhase (p.deleteDbInstance it.region it.id) (.deleteDbInstance it.region it.id))
    else if rt = "iam:user" then
      phaseOut "deleted" (iamPhase p it.id)
    else (.errored "unsupported resource type", [])

/-- `{"id": rid, "status": ...}` appended to `results`. -/
structure DelSuccess where
  id : Option String
  status : String
deriving DecidableEq, Repr

/-- `{"id": rid, "error": ...}` appended to `errors`. -/
structure DelFailure where
  id : Option String
  error : String
deriving DecidableEq, Repr

/-- `/delete` success body (`main.py` line 263). -/
structure DeleteResponse where
  deleted : List DelSuccess
  errors : List DelFailure
deriving DecidableEq, Repr

/-- The orchestration loop (`main.py` lines 215-259) threading the two
accumulator lists; an uncaught exception aborts the whole request as an
HTTP 500 (lines 260-261), discarding both lists. -/
def deleteGo (p : DelProvider) :
    List DelItem → List DelSuccess → List DelFailure →
    Except HTTPException DeleteResponse
  | [], res, errs => .ok ⟨res, errs⟩
  | it :: rest, res, errs =>
    match (runItem p it).1 with
    | .succeeded s => deleteGo p rest (res ++ [⟨it.id, s⟩]) errs
    | .errored m => deleteGo p rest res (errs ++ [⟨it.id, m⟩])
    | .fatalRaised m => .error ⟨500, m⟩

/-- `delete_resources` (`main.py` lines 210-263). -/
def delete_resources (p : DelProvider) (items : List DelItem) :
    Except HTTPException DeleteResponse :=
  deleteGo p items [] []

/-- The success outcome an item contributes, if any. -/
def okOutcome (p : DelProvider) (it : DelItem) : Option DelSuccess :=
  match (runItem p it).1 with
  | .succeeded s => some ⟨it.id, s⟩
  | _ => none

/-- The failure outcome an item contributes, if any. -/
def errOutcome (p : DelProvider) (it : DelItem) : Option DelFailure :=
  match (runItem p it).1 with
  | .errored m => some ⟨it.id, m⟩
  | _ => none

/-- Whether an item's workflow raised an exception the per-item handler
does not catch. -/
def isFatalStep : ItemStep → Bool
  | .fatalRaised _ => true
  | _ => false

/-- The full call sequence of the S3 bucket workflow. -/
def bucketFullTrace (rid : Option String) : List DelAction :=
  [.purgeObjects rid, .purgeVersions rid, .deleteBucket rid]

/-- Whether a scanner provider call did not raise a non-client error. -/
def notOtherE : PResult α → Bool
  | .error (.other _) => false
  | _ => true

/-- The provider hands out non-empty identifiers in every listing it
returns (true of AWS-assigned instance ids, bucket names, database
identifiers and user names). -/
def RawIdsNonEmpty (p : Provider) : Prop :=
  (∀ r l, p.describeInstances r = .ok l → ∀ i ∈ l, i.instanceId ≠ "") ∧
  (∀ l, p.listBuckets = .ok l → ∀ b ∈ l, b ≠ "") ∧
  (∀ r l, p.describeDbInstances r = .ok l → ∀ d ∈ l, d.dbInstanceIdentifier ≠ "") ∧
  (∀ l, p.listUsers = .ok l → ∀ u ∈ l, u.userName ≠ "")

/-- Every listing call, the RDS tag fetch and the identity call succeed,
and the best-effort tag fetches (bucket tagging, user tags) at worst
raise a client error. -/
def BenignProvider (p : Provider) : Prop :=
  (∀ r, isOkE (p.describeInstances r) = true) ∧
  isOkE p.listBuckets = true ∧
  (∀ r, isOkE (p.describeDbInstances r) = true) ∧
  isOkE p.listUsers = true ∧
  (∀ a, isOkE (p.listTagsForResource a) = true) ∧
  (∀ b, notOtherE (p.getBucketTagging b) = true) ∧
  (∀ u, notOtherE (p.listUserTags u) = true) ∧
  isOkE p.getCallerIdentity = true

/-- The full call sequence of the IAM user workflow under provider `p`:
list keys, delete each listed key, list attached policies, detach each,
list groups, remove from each, then delete the user. -/
def iamFullTrace (p : DelProvider) (rid : Option String) : List DelAction :=
  [DelAction.listAccessKeys rid] ++
    ((okList (p.listAccessKeys rid)).map (DelAction.deleteAccessKey rid) ++
      ([DelAction.listAttachedUserPolicies rid] ++
        ((okList (p.listAttachedUserPolicies rid)).map (DelAction.detachUserPolicy rid) ++
          ([DelAction.listGroupsForUser rid] ++
            ((okList (p.listGroupsForUser rid)).map (DelAction.removeUserFromGroup rid) ++
              [DelAction.deleteUser rid])))))

/-- Whether a deletion item's `resource_type` names a supported kind. -/
def isSupportedOpt : Option String → Bool
  | some t => isSupported t
  | none => false

/-- Apply the scope/tag filter to the payload of a provider result. -/
def filterE (pl : ListRequest) (r : PResult (List ResourceRecord)) :
    PResult (List ResourceRecord) :=
  match r with
  | .ok l => .ok (l.filter (fun rec => keepRecord pl rec.tags))
  | .error e => .error e

/-- A phase's trace is a stopped-early portion of `full`, and reaching
completion means the whole of `full` was attempted. -/
def PhaseLe (a : Phase) (full : List DelAction) : Prop :=
  (∃ n, n ≤ full.length ∧ a.trace = full.take n) ∧
  (a.out = .done → a.trace = full)

/-! Concrete fixtures used to evaluate the model on closed inputs. -/

/-- A healthy scan provider: two EC2 instances (one tagged
`Owner=alice`), one bucket whose tagging call raises a client error, no
databases, one user tagged `Owner=bob`. -/
def pScanW : Provider where
  describeInstances := fun _ =>
    .ok [⟨"i-1", [("Owner", "alice")], some "running"⟩, ⟨"i-2", [], some "stopped"⟩]
  listBuckets := .ok ["b1"]
  getBucketTagging := fun _ => .error (.client "NoSuchTagSet")
  describeDbInstances := fun _ => .ok []
  listTagsForResource := fun _ => .ok []
  listUsers := .ok [⟨"u1"⟩]
  listUserTags := fun _ => .ok [("Owner", "bob")]
  getCallerIdentity := .ok "123456789012"

/-- Tag-scoped request for `Owner=alice` EC2 instances in one region. -/
def plTagW : ListRequest :=
  { filter_scope := "tag", tag_key := some "Owner", tag_value := some "alice",
    resource_types := some ["ec2:instance"], regions := some ["us-east-1"] }

/-- Account-scoped request over EC2 and S3 in one region. -/
def plAcctW : ListRequest :=
  { filter_scope := "account",
    resource_types := some ["ec2:instance", "s3:bucket"], regions := some ["us-east-1"] }

/-- Provider whose only instance carries an empty-string tag key. -/
def pScanCexKey : Provider where
  describeInstances := fun _ => .ok [⟨"i-1", [("", "v")], none⟩]
  listBuckets := .ok []
  getBucketTagging := fun _ => .ok []
  describeDbInstances := fun _ => .ok []
  listTagsForResource := fun _ => .ok []
  listUsers := .ok []
  listUserTags := fun _ => .ok []
  getCallerIdentity := .ok "A"

/-- Tag-scoped request whose `tag_key` is the empty string. -/
def plKeyCex : ListRequest :=
  { filter_scope := "tag", tag_key := some "", tag_value := none,
    resource_types := some ["ec2:instance"], regions := some ["r1"] }

/-- Provider with one database whose tag fetch raises a client error. -/
def pScanCexRds : Provider where
  describeInstances := fun _ => .ok []
  listBuckets := .ok []
  getBucketTagging := fun _ => .ok []
  describeDbInstances := fun _ => .ok [⟨"db1", "arn1", some "available"⟩]
  listTagsForResource := fun _ => .error (.client "tagfail")
  listUsers := .ok []
  listUserTags := fun _ => .ok []
  getCallerIdentity := .ok "A"

/-- Account-scoped request over RDS only. -/
def plRdsCex : ListRequest :=
  { filter_scope := "account", resource_types := some ["rds:db"], regions := some ["r1"] }

/-- Provider listing a bucket whose name is the empty string. -/
def pScanCexEmptyId : Provider where
  describeInstances := fun _ => .ok []
  listBuckets := .ok [""]
  getBucketTagging := fun _ => .ok []
  describeDbInstances := fun _ => .ok []
  listTagsForResource := fun _ => .ok []
  listUsers := .ok []
  listUserTags := fun _ => .ok []
  getCallerIdentity := .ok "A"

/-- Account-scoped request over S3 only. -/
def plBucketCex : ListRequest :=
  { filter_scope := "account", resource_types := some ["s3:bucket"], regions := some ["r1"] }

/-- Provider whose EC2 listing raises a client error. -/
def pScanFail : Provider where
  describeInstances := fun _ => .error (.client "AccessDenied")
  listBuckets := .ok []
  getBucketTagging := fun _ => .ok []
  describeDbInstances := fun _ => .ok []
  listTagsForResource := fun _ => .ok []
  listUsers := .ok []
  listUserTags := fun _ => .ok []
  getCallerIdentity := .ok "A"

/-- Account-scoped request over EC2 only. -/
def plFailW : ListRequest :=
  { filter_scope := "account", resource_types := some ["ec2:instance"], regions := some ["r1"] }

/-- A deletion provider: every call succeeds except terminating instance
`i-bad`, which raises a client error; the user has one access key, one
attached policy and one group. -/
def pdW : DelProvider where
  terminateInstances := fun _ id =>
    if id = some "i-bad" then .clientErr "denied" else .ok ()
  purgeObjects := fun _ => .ok ()
  purgeVersions := fun _ => .ok ()
  deleteBucket := fun _ => .ok ()
  deleteDbInstance := fun _ _ => .ok ()
  listAccessKeys := fun _ => .ok [some "AK1"]
  deleteAccessKey := fun _ _ => .ok ()
  listAttachedUserPolicies := fun _ => .ok [some "arnP"]
  detachUserPolicy := fun _ _ => .ok ()
  listGroupsForUser := fun _ => .ok [some "g1"]
  removeUserFromGroup := fun _ _ => .ok ()
  deleteUser := fun _ => .ok ()

/-- A deletion provider whose instance termination raises a non-client
exception. -/
def pdFatalW : DelProvider where
  terminateInstances := fun _ _ => .fatal "boom"
  purgeObjects := fun _ => .ok ()
  purgeVersions := fun _ => .ok ()
  deleteBucket := fun _ => .ok ()
  deleteDbInstance := fun _ _ => .ok ()
  listAccessKeys := fun _ => .ok []
  deleteAccessKey := fun _ _ => .ok ()
  listAttachedUserPolicies := fun _ => .ok []
  detachUserPolicy := fun _ _ => .ok ()
  listGroupsForUser := fun _ => .ok []
  removeUserFromGroup := fun _ _ => .ok ()
  deleteUser := fun _ => .ok ()

/-- Deletion items used in closed evaluations. -/
def itEc2Good : DelItem := ⟨some "ec2:instance", some "i-1", some "r1"⟩

/-- An instance item the provider refuses to terminate. -/
def itEc2Bad : DelItem := ⟨some "ec2:instance", some "i-bad", some "r1"⟩

/-- A bucket deletion item. -/
def itS3W : DelItem := ⟨some "s3:bucket", some "b1", some "r1"⟩

/-- An IAM user deletion item. -/
def itIamW : DelItem := ⟨some "iam:user", some "u1", none⟩

/-- An item naming an unsupported resource type. -/
def itFoo : DelItem := ⟨some "foo:bar", some "x1", some "r1"⟩

/-! Helper lemmas for workflow phases and traces. -/

theorem callPhase_trace (c : CallResult α) (act : DelAction) :
    (callPhase c act).trace = [act] := by
  cases c <;> rfl

theorem callPhase_le (c : CallResult α) (act : DelAction) :
    PhaseLe (callPhase c act) [act] :=
  ⟨⟨1, by simp, by simp [callPhase_trace]⟩, fun _ => callPhase_trace c act⟩

theorem pchain_le {a b : Phase} {fa fb : List DelAction}
    (ha : PhaseLe a fa) (hb : PhaseLe b fb) : PhaseLe (pchain a b) (fa ++ fb) := by
  obtain ⟨⟨n, hn, htr⟩, hdone⟩ := ha
  obtain ⟨⟨m, hm, htrb⟩, hdoneb⟩ := hb
  cases hout : a.out with
  | done =>
    have hfa : a.trace = fa := hdone hout
    have hp : pchain a b = ⟨b.out, a.trace ++ b.trace⟩ := by simp [pchain, hout]
    constructor
    · refine ⟨fa.length + m, by simp; omega, ?_⟩
      rw [hp]
      show a.trace ++ b.trace = (fa ++ fb).take (fa.length + m)
      rw [List.take_append, hfa, htrb]
    · intro h
      rw [hp] at h ⊢
      exact by rw [hfa, hdoneb h]
  | errC msg =>
    have hp : pchain a b = ⟨.errC msg, a.trace⟩ := by simp [pchain, hout]
    constructor
    · refine ⟨n, by simp; omega, ?_⟩
      rw [hp]
      show a.trace = (fa ++ fb).take n
      rw [List.take_append_of_le_length hn, ← htr]
    · intro h
      rw [hp] at h
      exact absurd h (by simp)
  | errF msg =>
    have hp : pchain a b = ⟨.errF msg, a.trace⟩ := by simp [pchain, hout]
    constructor
    · refine ⟨n, by simp; omega, ?_⟩
      rw [hp]
      show a.trace = (fa ++ fb).take n
      rw [List.take_append_of_le_length hn, ← htr]
    · intro h
      rw [hp] at h
      exact absurd h (by simp)

theorem loopPhase_le (f : α → CallResult Unit) (act : α → DelAction) (xs : List α) :
    PhaseLe (loopPhase f act xs) (xs.map act) := by
  induction xs with
  | nil => exact ⟨⟨0, by simp, rfl⟩, fun _ => rfl⟩
  | cons x xs ih => simpa using pchain_le (callPhase_le (f x) (act x)) ih

theorem phaseOut_trace (s : String) (ph : Phase) : (phaseOut s ph).2 = ph.trace := by
  cases h : ph.out <;> simp [phaseOut, h]

theorem phaseOut_done {s s' : String} {ph : Phase}
    (h : (phaseOut s ph).1 = .succeeded s') : ph.out = .done := by
  cases ho : ph.out <;> simp [phaseOut, ho] at h ⊢

theorem take_last_mem {α : Type} {l : List α} {d : α} (hd : d ∉ l) {n : Nat}
    (h : d ∈ (l ++ [d]).take n) : (l ++ [d]).take n = l ++ [d] := by
  by_cases hle : n ≤ l.length
  · rw [List.take_append_of_le_length hle] at h
    exact absurd (List.take_subset n l h) hd
  · exact List.take_of_length_le (by simp; omega)

theorem s3Phase_le (p : DelProvider) (rid : Option String) :
    PhaseLe (s3Phase p rid) (bucketFullTrace rid) :=
  pchain_le (callPhase_le _ _) (pchain_le (callPhase_le _ _) (callPhase_le _ _))

theorem iamPhase_le (p : DelProvider) (rid : Option String) :
    PhaseLe (iamPhase p rid) (iamFullTrace p rid) :=
  pchain_le (callPhase_le _ _)
    (pchain_le (loopPhase_le _ _ _)
      (pchain_le (callPhase_le _ _)
        (pchain_le (loopPhase_le _ _ _)
          (pchain_le (callPhase_le _ _)
            (pchain_le (loopPhase_le _ _ _) (callPhase_le _ _))))))

/-- C4: For every object-store bucket deletion item, the workflow attempts,
in order, the purge of current objects, then the purge of object
versions/delete-markers, then the deletion of the bucket container: the
attempted-call trace is always an initial portion of that three-step
sequence, the container delete appears in the trace only when both purge
steps completed before it, and a successful outcome means all three steps
ran in order. -/
theorem bucket_delete_ordered (p : DelProvider) (it : DelItem)
    (h : it.resource_type = some "s3:bucket") :
    (∃ n, (runItem p it).2 = (bucketFullTrace it.id).take n) ∧
    (DelAction.deleteBucket it.id ∈ (runItem p it).2 →
      (runItem p it).2 = bucketFullTrace it.id) ∧
    ((runItem p it).1 = .succeeded "deleted" →
      (runItem p it).2 = bucketFullTrace it.id) := by
  rcases it with ⟨rt, rid, rreg⟩
  have h' : rt = some "s3:bucket" := h
  subst h'
  have hr : runItem p ⟨some "s3:bucket", rid, rreg⟩ = phaseOut "deleted" (s3Phase p rid) := rfl
  obtain ⟨⟨n, hn, htr⟩, hdone⟩ := s3Phase_le p rid
  have htrace : (runItem p ⟨some "s3:bucket", rid, rreg⟩).2 = (s3Phase p rid).trace := by
    rw [hr, phaseOut_trace]
  refine ⟨⟨n, by rw [htrace, htr]⟩, ?_, ?_⟩
  · intro hmem
    rw [htrace, htr] at hmem ⊢
    have heq : bucketFullTrace rid =
        [DelAction.purgeObjects rid, DelAction.purgeVersions rid] ++
          [DelAction.deleteBucket rid] := rfl
    rw [heq] at hmem ⊢
    exact take_last_mem (by simp) hmem
  · intro hs
    rw [hr] at hs
    rw [htrace]
    exact hdone (phaseOut_done hs)

/-- Witness for C4: under the healthy provider the bucket item's trace is
an initial portion of the purge-purge-delete sequence, the container
delete implies the full sequence, and success implies the full trace. -/
theorem bucket_delete_ordered_witness :
    (∃ n, (runItem pdW itS3W).2 = (bucketFullTrace itS3W.id).take n) ∧
    (DelAction.deleteBucket itS3W.id ∈ (runItem pdW itS3W).2 →
      (runItem pdW itS3W).2 = bucketFullTrace itS3W.id) ∧
    ((runItem pdW itS3W).1 = .succeeded "deleted" →
      (runItem pdW itS3W).2 = bucketFullTrace itS3W.id) :=
  bucket_delete_ordered pdW itS3W rfl

/-- C5: For every identity-principal (IAM user) deletion item, the
workflow attempts, in order: deletion of every listed access key,
detachment of every listed attached policy, removal from every listed
group, and only then the principal delete: the attempted-call trace is
always an initial portion of that sequence, the principal delete appears
only after all preceding steps completed, and a successful outcome means
the whole sequence ran in order. -/
theorem iam_delete_ordered (p : DelProvider) (it : DelItem)
    (h : it.resource_type = some "iam:user") :
    (∃ n, (runItem p it).2 = (iamFullTrace p it.id).take n) ∧
    (DelAction.deleteUser it.id ∈ (runItem p it).2 →
      (runItem p it).2 = iamFullTrace p it.id) ∧
    ((runItem p it).1 = .succeeded "deleted" →
      (runItem p it).2 = iamFullTrace p it.id) := by
  rcases it with ⟨rt, rid, rreg⟩
  have h' : rt = some "iam:user" := h
  subst h'
  have hr : runItem p ⟨some "iam:user", rid, rreg⟩ = phaseOut "deleted" (iamPhase p rid) := rfl
  obtain ⟨⟨n, hn, htr⟩, hdone⟩ := iamPhase_le p rid
  have htrace : (runItem p ⟨some "iam:user", rid, rreg⟩).2 = (iamPhase p rid).trace := by
    rw [hr, phaseOut_trace]
  refine ⟨⟨n, by rw [htrace, htr]⟩, ?_, ?_⟩
  · intro hmem
    rw [htrace, htr] at hmem ⊢
    have heq : iamFullTrace p rid =
        ([DelAction.listAccessKeys rid] ++
          (okList (p.listAccessKeys rid)).map (DelAction.deleteAccessKey rid) ++
          [DelAction.listAttachedUserPolicies rid] ++
          (okList (p.listAttachedUserPolicies rid)).map (DelAction.detachUserPolicy rid) ++
          [DelAction.listGroupsForUser rid] ++
          (okList (p.listGroupsForUser rid)).map (DelAction.removeUserFromGroup rid)) ++
          [DelAction.deleteUser rid] := by
      simp [iamFullTrace]
    rw [heq] at hmem ⊢
    refine take_last_mem ?_ hmem
    simp
  · intro hs
    rw [hr] at hs
    rw [htrace]
    exact hdone (phaseOut_done hs)

/-- Witness for C5: under the healthy provider (one key, one policy, one
group) the IAM item's trace is an initial portion of the full sequence,
the principal delete implies the full sequence, and success implies the
full trace. -/
theorem iam_delete_ordered_witness :
    (∃ n, (runItem pdW itIamW).2 = (iamFullTrace pdW itIamW.id).take n) ∧
    (DelAction.deleteUser itIamW.id ∈ (runItem pdW itIamW).2 →
      (runItem pdW itIamW).2 = iamFullTrace pdW itIamW.id) ∧
    ((runItem pdW itIamW).1 = .succeeded "deleted" →
      (runItem pdW itIamW).2 = iamFullTrace pdW itIamW.id) :=
  iam_delete_ordered pdW itIamW rfl

/-! The orchestration loop: per-item outcome characterization. -/

theorem deleteGo_spec (p : DelProvider) (items : List DelItem) :
    ∀ (res : List DelSuccess) (errs : List DelFailure),
    (∀ it ∈ items, isFatalStep (runItem p it).1 = false) →
    deleteGo p items res errs =
      .ok ⟨res ++ items.filterMap (okOutcome p),
           errs ++ items.filterMap (errOutcome p)⟩ := by
  induction items with
  | nil => intro res errs _; simp [deleteGo]
  | cons it rest ih =>
    intro res errs h
    have hit : isFatalStep (runItem p it).1 = false := h it (by simp)
    have hrest : ∀ j ∈ rest, isFatalStep (runItem p j).1 = false :=
      fun j hj => h j (by simp [hj])
    cases hstep : (runItem p it).1 with
    | succeeded s =>
      have h1 : deleteGo p (it :: rest) res errs =
          deleteGo p rest (res ++ [⟨it.id, s⟩]) errs := by
        simp [deleteGo, hstep]
      rw [h1, ih _ _ hrest]
      simp [List.filterMap_cons, okOutcome, errOutcome, hstep]
    | errored m =>
      have h1 : deleteGo p (it :: rest) res errs =
          deleteGo p rest res (errs ++ [⟨it.id, m⟩]) := by
        simp [deleteGo, hstep]
      rw [h1, ih _ _ hrest]
      simp [List.filterMap_cons, okOutcome, errOutcome, hstep]
    | fatalRaised m =>
      rw [hstep] at hit
      simp [isFatalStep] at hit

theorem outcome_count (p : DelProvider) :
    ∀ (items : List DelItem),
    (∀ it ∈ items, isFatalStep (runItem p it).1 = false) →
    (items.filterMap (okOutcome p)).length +
      (items.filterMap (errOutcome p)).length = items.length := by
  intro items
  induction items with
  | nil => intro _; rfl
  | cons it rest ih =>
    intro h
    have hit := h it (by simp)
    have hr := ih (fun j hj => h j (by simp [hj]))
    cases hstep : (runItem p it).1 with
    | succeeded s =>
      simp [List.filterMap_cons, okOutcome, errOutcome, hstep]
      omega
    | errored m =>
      simp [List.filterMap_cons, okOutcome, errOutcome, hstep]
      omega
    | fatalRaised m =>
      rw [hstep] at hit
      simp [isFatalStep] at hit

theorem outcome_ids_ok (p : DelProvider) (items : List DelItem) :
    ∀ o ∈ items.filterMap (okOutcome p), ∃ it ∈ items, o.id = it.id := by
  intro o ho
  obtain ⟨it, hit, hoeq⟩ := List.mem_filterMap.mp ho
  refine ⟨it, hit, ?_⟩
  cases hstep : (runItem p it).1 with
  | succeeded s =>
    simp [okOutcome, hstep] at hoeq
    rw [← hoeq]
  | errored m => simp [okOutcome, hstep] at hoeq
  | fatalRaised m => simp [okOutcome, hstep] at hoeq

theorem outcome_ids_err (p : DelProvider) (items : List DelItem) :
    ∀ o ∈ items.filterMap (errOutcome p), ∃ it ∈ items, o.id = it.id := by
  intro o ho
  obtain ⟨it, hit, hoeq⟩ := List.mem_filterMap.mp ho
  refine ⟨it, hit, ?_⟩
  cases hstep : (runItem p it).1 with
  | succeeded s => simp [errOutcome, hstep] at hoeq
  | errored m =>
    simp [errOutcome, hstep] at hoeq
    rw [← hoeq]
  | fatalRaised m => simp [errOutcome, hstep] at hoeq

/-- C2 as stated is false on the code: a non-client exception raised
while deleting the first item makes `delete_resources` abort the whole
request as HTTP 500, so the second item is never attempted and the
failing item contributes no entry to any errors list. -/
theorem delete_independence_cex :
    (runItem pdFatalW itEc2Good).1 = .fatalRaised "boom" ∧
    delete_resources pdFatalW [itEc2Good, itS3W] = .error ⟨500, "boom"⟩ :=
  ⟨rfl, rfl⟩

/-- C2 (amended): for every deletion request in which no item raises an
uncaught (non-client) exception, the failure of any item `it` — a caught
client error or the unsupported-type outcome — never stops or skips the
processing of the items after it: every item contributes its own
outcome, and the failed item contributes exactly one entry to the errors
list while orchestration continues. -/
theorem delete_independence (p : DelProvider) (pre post : List DelItem)
    (it : DelItem) (m : String)
    (hnf : ∀ j ∈ pre ++ it :: post, isFatalStep (runItem p j).1 = false)
    (hfail : (runItem p it).1 = .errored m) :
    delete_resources p (pre ++ it :: post) =
      .ok ⟨pre.filterMap (okOutcome p) ++ post.filterMap (okOutcome p),
           pre.filterMap (errOutcome p) ++
             ⟨it.id, m⟩ :: post.filterMap (errOutcome p)⟩ := by
  rw [delete_resources, deleteGo_spec p _ [] [] hnf]
  simp [List.filterMap_append, List.filterMap_cons, okOutcome, errOutcome, hfail]

/-- Witness for C2 (amended): a batch whose second item fails with a
client error still attempts and succeeds on the third and fourth. -/
theorem delete_independence_witness :
    delete_resources pdW ([itEc2Good] ++ itEc2Bad :: [itS3W, itIamW]) =
      .ok ⟨[⟨some "i-1", "terminated"⟩, ⟨some "b1", "deleted"⟩,
            ⟨some "u1", "deleted"⟩],
           [⟨itEc2Bad.id, "denied"⟩]⟩ :=
  (delete_independence pdW [itEc2Good] [itS3W, itIamW] itEc2Bad "denied"
    (by decide) rfl).trans rfl

/-- C10: For every deletion request in which each item's workflow either
succeeds or fails with a caught (client-level) error, the response's
`deleted` and `errors` lists together contain exactly one outcome per
input item, each outcome carries its item's id, and within each list the
outcomes appear in the input items' order (the lists are the in-order
projections of the per-item outcomes). -/
theorem delete_outcomes_partition (p : DelProvider) (items : List DelItem)
    (hnf : ∀ it ∈ items, isFatalStep (runItem p it).1 = false) :
    delete_resources p items =
      .ok ⟨items.filterMap (okOutcome p), items.filterMap (errOutcome p)⟩ ∧
    (items.filterMap (okOutcome p)).length +
      (items.filterMap (errOutcome p)).length = items.length ∧
    (∀ o ∈ items.filterMap (okOutcome p), ∃ it ∈ items, o.id = it.id) ∧
    (∀ o ∈ items.filterMap (errOutcome p), ∃ it ∈ items, o.id = it.id) :=
  ⟨by simpa using deleteGo_spec p items [] [] hnf,
   outcome_count p items hnf,
   outcome_ids_ok p items,
   outcome_ids_err p items⟩

/-- Witness for C10: a three-item batch (success, client failure,
unsupported type) yields 1+2 outcomes in input order with the items'
ids. -/
theorem delete_outcomes_partition_witness :
    delete_resources pdW [itEc2Good, itEc2Bad, itFoo] =
      .ok ⟨[itEc2Good, itEc2Bad, itFoo].filterMap (okOutcome pdW),
           [itEc2Good, itEc2Bad, itFoo].filterMap (errOutcome pdW)⟩ ∧
    ([itEc2Good, itEc2Bad, itFoo].filterMap (okOutcome pdW)).length +
      ([itEc2Good, itEc2Bad, itFoo].filterMap (errOutcome pdW)).length = 3 ∧
    (∀ o ∈ [itEc2Good, itEc2Bad, itFoo].filterMap (okOutcome pdW),
      ∃ it ∈ [itEc2Good, itEc2Bad, itFoo], o.id = it.id) ∧
    (∀ o ∈ [itEc2Good, itEc2Bad, itFoo].filterMap (errOutcome pdW),
      ∃ it ∈ [itEc2Good, itEc2Bad, itFoo], o.id = it.id) :=
  delete_outcomes_partition pdW [itEc2Good, itEc2Bad, itFoo] (by decide)

/-! Unsupported-type handling on the scan side. -/

theorem scanOne_unsupported (p : Provider) (pl : ListRequest)
    (region t : String) (h : isSupported t = false) :
    scanOne p pl region t = .ok [] := by
  rw [isSupported] at h
  have h' := of_decide_eq_false h
  push_neg at h'
  obtain ⟨h1, h2, h3, h4⟩ := h'
  simp [scanOne, h1, h2, h3, h4]

theorem scanTypes_skip (p : Provider) (pl : ListRequest) (region : String)
    (ts₁ ts₂ : List String) (t : String) (h : isSupported t = false) :
    scanTypes p pl region (ts₁ ++ t :: ts₂) = scanTypes p pl region (ts₁ ++ ts₂) := by
  induction ts₁ with
  | nil =>
    show scanTypes p pl region (t :: ts₂) = scanTypes p pl region ts₂
    cases hrest : scanTypes p pl region ts₂ <;>
      simp [scanTypes, scanOne_unsupported p pl region t h, hrest]
  | cons t' ts₁ ih =>
    cases hsc : scanOne p pl region t' <;>
      simp [scanTypes, hsc, ih]

theorem runItem_unsupported (p : DelProvider) (it : DelItem)
    (h : isSupportedOpt it.resource_type = false) :
    runItem p it = (.errored "unsupported resource type", []) := by
  rcases it with ⟨rt, rid, rreg⟩
  cases rt with
  | none => rfl
  | some t =>
    have ht : isSupported t = false := h
    rw [isSupported] at ht
    have h' := of_decide_eq_false ht
    push_neg at h'
    obtain ⟨h1, h2, h3, h4⟩ := h'
    simp [runItem, h1, h2, h3, h4]

/-- C7: An unsupported resource-type identifier is handled
asymmetrically: during a scan it is skipped silently — removing it from
the requested type list changes nothing, so it has no effect on results
or success — while during deletion the item yields exactly the outcome
`(errored "unsupported resource type")` with no provider call, and (when
no item raises an uncaught exception) orchestration continues past it,
recording exactly one error entry for it. -/
theorem unsupported_type_asymmetry :
    (∀ (p : Provider) (pl : ListRequest) (region : String)
        (ts₁ ts₂ : List String) (t : String), isSupported t = false →
      scanTypes p pl region (ts₁ ++ t :: ts₂) = scanTypes p pl region (ts₁ ++ ts₂)) ∧
    (∀ (p : DelProvider) (it : DelItem), isSupportedOpt it.resource_type = false →
      runItem p it = (.errored "unsupported resource type", [])) ∧
    (∀ (p : DelProvider) (pre post : List DelItem) (it : DelItem),
      (∀ j ∈ pre ++ it :: post, isFatalStep (runItem p j).1 = false) →
      isSupportedOpt it.resource_type = false →
      delete_resources p (pre ++ it :: post) =
        .ok ⟨pre.filterMap (okOutcome p) ++ post.filterMap (okOutcome p),
             pre.filterMap (errOutcome p) ++
               ⟨it.id, "unsupported resource type"⟩ :: post.filterMap (errOutcome p)⟩) := by
  refine ⟨fun p pl region ts₁ ts₂ t h => scanTypes_skip p pl region ts₁ ts₂ t h,
          fun p it h => runItem_unsupported p it h,
          fun p pre post it hnf h => ?_⟩
  rw [delete_resources, deleteGo_spec p _ [] [] hnf]
  have hrun := runItem_unsupported p it h
  simp [List.filterMap_append, List.filterMap_cons, okOutcome, errOutcome, hrun]

/-- Witness for C7: the type `foo:bar` is skipped by the scanner's type
loop and produces exactly one unsupported-type error during deletion
while the surrounding items still succeed. -/
theorem unsupported_type_asymmetry_witness :
    scanTypes pScanW plAcctW "r1" (["ec2:instance"] ++ "foo:bar" :: []) =
      scanTypes pScanW plAcctW "r1" (["ec2:instance"] ++ []) ∧
    runItem pdW itFoo = (.errored "unsupported resource type", []) ∧
    delete_resources pdW ([itEc2Good] ++ itFoo :: [itS3W]) =
      .ok ⟨[itEc2Good].filterMap (okOutcome pdW) ++ [itS3W].filterMap (okOutcome pdW),
           [itEc2Good].filterMap (errOutcome pdW) ++
             ⟨itFoo.id, "unsupported resource type"⟩ :: [itS3W].filterMap (errOutcome pdW)⟩ :=
  ⟨unsupported_type_asymmetry.1 pScanW plAcctW "r1" ["ec2:instance"] [] "foo:bar" (by decide),
   unsupported_type_asymmetry.2.1 pdW itFoo (by decide),
   unsupported_type_asymmetry.2.2 pdW [itEc2Good] [itS3W] itFoo (by decide) (by decide)⟩

/-! Scanner structure lemmas. -/

theorem emitAll_eq_filterE (pl : ListRequest) (mk : α → PResult ResourceRecord)
    (xs : List α) : emitAll pl mk xs = filterE pl (collectAll mk xs) := by
  induction xs with
  | nil => rfl
  | cons x xs ih =>
    cases hmk : mk x with
    | error e => simp [emitAll, collectAll, hmk, filterE]
    | ok r =>
      simp only [emitAll, collectAll, hmk]
      rw [ih]
      cases hc : collectAll mk xs with
      | error e => simp [filterE]
      | ok rest => simp [filterE, List.filter_cons]

theorem collectAll_ok_mem (mk : α → PResult ResourceRecord) :
    ∀ (xs : List α) (l : List ResourceRecord), collectAll mk xs = .ok l →
    ∀ rec, rec ∈ l ↔ ∃ x ∈ xs, mk x = .ok rec := by
  intro xs
  induction xs with
  | nil =>
    intro l hl rec
    simp [collectAll] at hl
    subst hl
    simp
  | cons x xs ih =>
    intro l hl rec
    cases hmk : mk x with
    | error e => simp [collectAll, hmk] at hl
    | ok r =>
      cases hc : collectAll mk xs with
      | error e => simp [collectAll, hmk, hc] at hl
      | ok rest =>
        simp [collectAll, hmk, hc] at hl
        subst hl
        constructor
        · intro hm
          rcases List.mem_cons.mp hm with h | h
          · exact ⟨x, by simp, by rw [hmk, h]⟩
          · obtain ⟨y, hy, hmy⟩ := (ih rest hc rec).mp h
            exact ⟨y, by simp [hy], hmy⟩
        · rintro ⟨y, hy, hmy⟩
          rcases List.mem_cons.mp hy with h | h
          · subst h
            rw [hmk] at hmy
            injection hmy with h'
            simp [h']
          · exact List.mem_cons.mpr (Or.inr ((ih rest hc rec).mpr ⟨y, h, hmy⟩))

theorem scanOne_eq_filterE (p : Provider) (pl : ListRequest) (region t : String) :
    scanOne p pl region t = filterE pl (listRawOne p region t) := by
  simp only [scanOne, listRawOne]
  split_ifs
  · cases hd : p.describeInstances region <;> simp [filterE, emitAll_eq_filterE]
  · cases hd : p.listBuckets <;> simp [filterE, emitAll_eq_filterE]
  · cases hd : p.describeDbInstances region <;> simp [filterE, emitAll_eq_filterE]
  · cases hd : p.listUsers <;> simp [filterE, emitAll_eq_filterE]
  · simp [filterE]

theorem scanTypes_ok_inv (p : Provider) (pl : ListRequest) (region : String) :
    ∀ (ts : List String) (l : List ResourceRecord),
    scanTypes p pl region ts = .ok l →
    (∀ t ∈ ts, ∃ lt, scanOne p pl region t = .ok lt) ∧
    (∀ rec, rec ∈ l ↔ ∃ t ∈ ts, ∃ lt, scanOne p pl region t = .ok lt ∧ rec ∈ lt) := by
  intro ts
  induction ts with
  | nil =>
    intro l hl
    simp [scanTypes] at hl
    subst hl
    exact ⟨by simp, by simp⟩
  | cons t ts ih =>
    intro l hl
    cases hsc : scanOne p pl region t with
    | error e => simp [scanTypes, hsc] at hl
    | ok recs =>
      cases hrest : scanTypes p pl region ts with
      | error e => simp [scanTypes, hsc, hrest] at hl
      | ok rest =>
        simp [scanTypes, hsc, hrest] at hl
        subst hl
        obtain ⟨hall, hmem⟩ := ih rest hrest
        constructor
        · intro t' ht'
          rcases List.mem_cons.mp ht' with h | h
          · subst h
            exact ⟨recs, hsc⟩
          · exact hall t' h
        · intro rec
          rw [List.mem_append]
          constructor
          · rintro (h | h)
            · exact ⟨t, by simp, recs, hsc, h⟩
            · obtain ⟨t', ht', lt, hlt, hm⟩ := (hmem rec).mp h
              exact ⟨t', by simp [ht'], lt, hlt, hm⟩
          · rintro ⟨t', ht', lt, hlt, hm⟩
            rcases List.mem_cons.mp ht' with h | h
            · subst h
              rw [hsc] at hlt
              injection hlt with h'
              subst h'
              exact Or.inl hm
            · exact Or.inr ((hmem rec).mpr ⟨t', h, lt, hlt, hm⟩)

theorem scanRegions_ok_inv (p : Provider) (pl : ListRequest) (rtypes : List String) :
    ∀ (rs : List String) (l : List ResourceRecord),
    scanRegions p pl rtypes rs = .ok l →
    (∀ r ∈ rs, ∃ lr, scanTypes p pl r rtypes = .ok lr) ∧
    (∀ rec, rec ∈ l ↔ ∃ r ∈ rs, ∃ lr, scanTypes p pl r rtypes = .ok lr ∧ rec ∈ lr) := by
  intro rs
  induction rs with
  | nil =>
    intro l hl
    simp [scanRegions] at hl
    subst hl
    exact ⟨by simp, by simp⟩
  | cons r rs ih =>
    intro l hl
    cases hsc : scanTypes p pl r rtypes with
    | error e => simp [scanRegions, hsc] at hl
    | ok recs =>
      cases hrest : scanRegions p pl rtypes rs with
      | error e => simp [scanRegions, hsc, hrest] at hl
      | ok rest =>
        simp [scanRegions, hsc, hrest] at hl
        subst hl
        obtain ⟨hall, hmem⟩ := ih rest hrest
        constructor
        · intro r' hr'
          rcases List.mem_cons.mp hr' with h | h
          · subst h
            exact ⟨recs, hsc⟩
          · exact hall r' h
        · intro rec
          rw [List.mem_append]
          constructor
          · rintro (h | h)
            · exact ⟨r, by simp, recs, hsc, h⟩
            · obtain ⟨r', hr', lr, hlr, hm⟩ := (hmem rec).mp h
              exact ⟨r', by simp [hr'], lr, hlr, hm⟩
          · rintro ⟨r', hr', lr, hlr, hm⟩
            rcases List.mem_cons.mp hr' with h | h
            · subst h
              rw [hsc] at hlr
              injection hlr with h'
              subst h'
              exact Or.inl hm
            · exact Or.inr ((hmem rec).mpr ⟨r', h, lr, hlr, hm⟩)

theorem list_resources_ok_inv (p : Provider) (pl : ListRequest)
    (resp : ScanResponse) (h : list_resources p pl = .ok resp) :
    scanRegions p pl (pyOrList pl.resource_types default_resource_types)
      (pyOrList pl.regions _default_regions) = .ok resp.resources := by
  rw [list_resources] at h
  cases hm : scanRegions p pl (pyOrList pl.resource_types default_resource_types)
      (pyOrList pl.regions _default_regions) with
  | error e => rw [hm] at h; exact absurd h (by simp)
  | ok matched =>
    rw [hm] at h
    injection h with h'
    rw [← h']

theorem keepRecord_iff (pl : ListRequest) (h : pl.filter_scope = "tag") (ts : Tags) :
    keepRecord pl ts = true ↔
      ∃ k, pl.tag_key = some k ∧ k ≠ "" ∧ tagsContains ts k = true ∧
        (pl.tag_value = none ∨ tagsGet ts k = pl.tag_value) := by
  rw [keepRecord, if_pos h]
  cases hk : pl.tag_key with
  | none => simp
  | some k =>
    simp [bne_iff_ne, Option.isNone_iff_eq_none, and_assoc]

/-- C8: For every scan request with scope "account" or scope "org",
every record returned by a handler's lister is included in the scan
results unconditionally, regardless of its tags: each (region, type)
iteration returns exactly the listed records, and every listed record of
an effective (region, type) pair appears in the response. -/
theorem scan_account_org_keeps_all (p : Provider) (pl : ListRequest)
    (h : pl.filter_scope = "account" ∨ pl.filter_scope = "org") :
    (∀ region rtype, scanOne p pl region rtype = listRawOne p region rtype) ∧
    (∀ resp, list_resources p pl = .ok resp →
      ∀ region ∈ pyOrList pl.regions _default_regions,
      ∀ rtype ∈ pyOrList pl.resource_types default_resource_types,
      ∀ raws, listRawOne p region rtype = .ok raws →
      ∀ rec ∈ raws, rec ∈ resp.resources) := by
  have hns : ¬ pl.filter_scope = "tag" := by
    rcases h with h | h <;> simp [h]
  have hkeep : ∀ ts, keepRecord pl ts = true := by
    intro ts
    rw [keepRecord, if_neg hns]
  have hone : ∀ region rtype, scanOne p pl region rtype = listRawOne p region rtype := by
    intro region rtype
    rw [scanOne_eq_filterE]
    cases hl : listRawOne p region rtype with
    | error e => simp [filterE]
    | ok l =>
      simp only [filterE]
      congr 1
      exact List.filter_eq_self.mpr (fun a _ => hkeep a.tags)
  refine ⟨hone, ?_⟩
  intro resp hresp region hreg rtype hrt raws hraws rec hrec
  have hm := list_resources_ok_inv p pl resp hresp
  obtain ⟨hallR, hmemR⟩ := scanRegions_ok_inv p pl _ _ _ hm
  obtain ⟨lr, hlr⟩ := hallR region hreg
  obtain ⟨hallT, hmemT⟩ := scanTypes_ok_inv p pl region _ _ hlr
  have hscan : scanOne p pl region rtype = .ok raws := by rw [hone, hraws]
  have hinlr : rec ∈ lr := (hmemT rec).mpr ⟨rtype, hrt, raws, hscan, hrec⟩
  exact (hmemR rec).mpr ⟨region, hreg, lr, hlr, hinlr⟩

/-- Witness for C8: under the healthy provider with an account-scoped
request, the (region, type) scan equals the unfiltered listing, and the
listed untagged bucket record appears in the response. -/
theorem scan_account_org_keeps_all_witness :
    scanOne pScanW plAcctW "us-east-1" "s3:bucket" =
      listRawOne pScanW "us-east-1" "s3:bucket" ∧
    (⟨"b1", "s3:bucket", "us-east-1", "123456789012", [], none⟩ : ResourceRecord) ∈
      (⟨3, [⟨"i-1", "ec2:instance", "us-east-1", "123456789012",
              [("Owner", "alice")], some "running"⟩,
            ⟨"i-2", "ec2:instance", "us-east-1", "123456789012", [], some "stopped"⟩,
            ⟨"b1", "s3:bucket", "us-east-1", "123456789012", [], none⟩]⟩ :
        ScanResponse).resources :=
  ⟨(scan_account_org_keeps_all pScanW plAcctW (Or.inl rfl)).1 "us-east-1" "s3:bucket",
   (scan_account_org_keeps_all pScanW plAcctW (Or.inl rfl)).2 _ rfl
     "us-east-1" (by simp [plAcctW, pyOrList])
     "s3:bucket" (by simp [plAcctW, pyOrList])
     [⟨"b1", "s3:bucket", "us-east-1", "123456789012", [], none⟩] rfl
     _ (by simp)⟩

/-- C1 as stated is false on the code: with `tag_key` set (to the empty
string) and present among a listed record's tags, and `tag_value` unset,
the record is still excluded, because the source tests `payload.tag_key`
for Python truthiness rather than for being set. -/
theorem scan_tag_filter_cex :
    plKeyCex.filter_scope = "tag" ∧
    plKeyCex.tag_key = some "" ∧
    plKeyCex.tag_value = none ∧
    pScanCexKey.describeInstances "r1" = .ok [⟨"i-1", [("", "v")], none⟩] ∧
    tagsContains [("", "v")] "" = true ∧
    list_resources pScanCexKey plKeyCex = .ok ⟨0, []⟩ :=
  ⟨rfl, rfl, rfl, rfl, rfl, rfl⟩

/-- C1 (amended): for every tag-scoped scan request, a listed raw record
is included in the scan results iff `tag_key` is set to a non-empty
string that is present among the record's tags and (`tag_value` is unset
or equals the record's value for that key); in particular a record whose
tags do not contain `tag_key`, or whose value for `tag_key` differs from
a set `tag_value`, is excluded — and so is every record when `tag_key`
is unset or empty. -/
theorem scan_tag_filter (p : Provider) (pl : ListRequest) (resp : ScanResponse)
    (hscope : pl.filter_scope = "tag")
    (hok : list_resources p pl = .ok resp) (rec : ResourceRecord) :
    rec ∈ resp.resources ↔
      ∃ region ∈ pyOrList pl.regions _default_regions,
        ∃ rtype ∈ pyOrList pl.resource_types default_resource_types,
          ∃ raws, listRawOne p region rtype = .ok raws ∧ rec ∈ raws ∧
            ∃ k, pl.tag_key = some k ∧ k ≠ "" ∧ tagsContains rec.tags k = true ∧
              (pl.tag_value = none ∨ tagsGet rec.tags k = pl.tag_value) := by
  have hm := list_resources_ok_inv p pl resp hok
  obtain ⟨hallR, hmemR⟩ := scanRegions_ok_inv p pl _ _ _ hm
  constructor
  · intro hrec
    obtain ⟨region, hreg, lr, hlr, hinlr⟩ := (hmemR rec).mp hrec
    obtain ⟨hallT, hmemT⟩ := scanTypes_ok_inv p pl region _ _ hlr
    obtain ⟨rtype, hrt, lt, hlt, hinlt⟩ := (hmemT rec).mp hinlr
    rw [scanOne_eq_filterE] at hlt
    cases hraw : listRawOne p region rtype with
    | error e =>
      rw [hraw] at hlt
      exact absurd hlt (by simp [filterE])
    | ok raws =>
      rw [hraw] at hlt
      simp only [filterE] at hlt
      injection hlt with hlt
      subst hlt
      have hf := List.mem_filter.mp hinlt
      refine ⟨region, hreg, rtype, hrt, raws, hraw, hf.1, ?_⟩
      exact (keepRecord_iff pl hscope rec.tags).mp hf.2
  · rintro ⟨region, hreg, rtype, hrt, raws, hraw, hinraws, hcond⟩
    obtain ⟨lr, hlr⟩ := hallR region hreg
    obtain ⟨hallT, hmemT⟩ := scanTypes_ok_inv p pl region _ _ hlr
    have hkeep : keepRecord pl rec.tags = true :=
      (keepRecord_iff pl hscope rec.tags).mpr hcond
    have hscan : scanOne p pl region rtype =
        .ok (raws.filter (fun r => keepRecord pl r.tags)) := by
      rw [scanOne_eq_filterE, hraw]
      rfl
    have hin : rec ∈ raws.filter (fun r => keepRecord pl r.tags) :=
      List.mem_filter.mpr ⟨hinraws, hkeep⟩
    have hinlr : rec ∈ lr := (hmemT rec).mpr ⟨rtype, hrt, _, hscan, hin⟩
    exact (hmemR rec).mpr ⟨region, hreg, lr, hlr, hinlr⟩

/-- Witness for C1 (amended): under the healthy provider the tagged
instance is in the response, and the theorem's two-way characterization
holds for it at the tag-scoped request `Owner=alice`. -/
theorem scan_tag_filter_witness :
    (⟨"i-1", "ec2:instance", "us-east-1", "123456789012",
       [("Owner", "alice")], some "running"⟩ : ResourceRecord) ∈
      (⟨1, [⟨"i-1", "ec2:instance", "us-east-1", "123456789012",
              [("Owner", "alice")], some "running"⟩]⟩ : ScanResponse).resources ↔
      ∃ region ∈ pyOrList plTagW.regions _default_regions,
        ∃ rtype ∈ pyOrList plTagW.resource_types default_resource_types,
          ∃ raws, listRawOne pScanW region rtype = .ok raws ∧
            (⟨"i-1", "ec2:instance", "us-east-1", "123456789012",
               [("Owner", "alice")], some "running"⟩ : ResourceRecord) ∈ raws ∧
            ∃ k, plTagW.tag_key = some k ∧ k ≠ "" ∧
              tagsContains [("Owner", "alice")] k = true ∧
              (plTagW.tag_value = none ∨
                tagsGet [("Owner", "alice")] k = plTagW.tag_value) :=
  scan_tag_filter pScanW plTagW
    ⟨1, [⟨"i-1", "ec2:instance", "us-east-1", "123456789012",
          [("Owner", "alice")], some "running"⟩]⟩ rfl rfl
    ⟨"i-1", "ec2:instance", "us-east-1", "123456789012",
      [("Owner", "alice")], some "running"⟩

/-! Fail-fast error propagation through the scan loops. -/

theorem scanTypes_ok_of (p : Provider) (pl : ListRequest) (region : String) :
    ∀ (ts : List String), (∀ t ∈ ts, isOkE (scanOne p pl region t) = true) →
    isOkE (scanTypes p pl region ts) = true := by
  intro ts
  induction ts with
  | nil => intro _; rfl
  | cons t ts ih =>
    intro h
    have ht := h t (by simp)
    cases hsc : scanOne p pl region t with
    | error e => rw [hsc] at ht; simp [isOkE] at ht
    | ok recs =>
      have hrest := ih (fun t' ht' => h t' (by simp [ht']))
      cases hr : scanTypes p pl region ts with
      | error e => rw [hr] at hrest; simp [isOkE] at hrest
      | ok rest => simp [scanTypes, hsc, hr, isOkE]

theorem scanRegions_ok_of (p : Provider) (pl : ListRequest) (rtypes : List String) :
    ∀ (rs : List String), (∀ r ∈ rs, isOkE (scanTypes p pl r rtypes) = true) →
    isOkE (scanRegions p pl rtypes rs) = true := by
  intro rs
  induction rs with
  | nil => intro _; rfl
  | cons r rs ih =>
    intro h
    have hr := h r (by simp)
    cases hsc : scanTypes p pl r rtypes with
    | error e => rw [hsc] at hr; simp [isOkE] at hr
    | ok recs =>
      have hrest := ih (fun r' hr' => h r' (by simp [hr']))
      cases hrr : scanRegions p pl rtypes rs with
      | error e => rw [hrr] at hrest; simp [isOkE] at hrest
      | ok rest => simp [scanRegions, hsc, hrr, isOkE]

theorem scanTypes_err (p : Provider) (pl : ListRequest) (region : String) :
    ∀ (ts₁ : List String) (t : String) (ts₂ : List String) (e : PErr),
    (∀ t' ∈ ts₁, isOkE (scanOne p pl region t') = true) →
    scanOne p pl region t = .error e →
    scanTypes p pl region (ts₁ ++ t :: ts₂) = .error e := by
  intro ts₁
  induction ts₁ with
  | nil =>
    intro t ts₂ e _ he
    simp [scanTypes, he]
  | cons t' ts₁ ih =>
    intro t ts₂ e h he
    have ht' := h t' (by simp)
    cases hsc : scanOne p pl region t' with
    | error e' => rw [hsc] at ht'; simp [isOkE] at ht'
    | ok recs =>
      have hrec := ih t ts₂ e (fun x hx => h x (by simp [hx])) he
      simp [scanTypes, hsc, hrec]

theorem scanRegions_err (p : Provider) (pl : ListRequest) (rtypes : List String) :
    ∀ (rs₁ : List String) (r : String) (rs₂ : List String) (e : PErr),
    (∀ r' ∈ rs₁, isOkE (scanTypes p pl r' rtypes) = true) →
    scanTypes p pl r rtypes = .error e →
    scanRegions p pl rtypes (rs₁ ++ r :: rs₂) = .error e := by
  intro rs₁
  induction rs₁ with
  | nil =>
    intro r rs₂ e _ he
    simp [scanRegions, he]
  | cons r' rs₁ ih =>
    intro r rs₂ e h he
    have hr' := h r' (by simp)
    cases hsc : scanTypes p pl r' rtypes with
    | error e' => rw [hsc] at hr'; simp [isOkE] at hr'
    | ok recs =>
      have hrec := ih r rs₂ e (fun x hx => h x (by simp [hx])) he
      simp [scanRegions, hsc, hrec]

/-- C6: For every scan request, a provider-level error during any one
(region, type) iteration — all earlier iterations in the deterministic
region-outer, type-inner order having succeeded — aborts the whole scan
with no partial results: a client (validation/access) error surfaces as
an HTTP 400 failure carrying the provider's message, any other error as
an HTTP 500 failure, and no success response is produced. -/
theorem scan_fail_fast (p : Provider) (pl : ListRequest)
    (rs₁ rs₂ ts₁ ts₂ : List String) (r t : String) (e : PErr)
    (hr : pyOrList pl.regions _default_regions = rs₁ ++ r :: rs₂)
    (ht : pyOrList pl.resource_types default_resource_types = ts₁ ++ t :: ts₂)
    (hpriorR : ∀ r' ∈ rs₁, ∀ t' ∈ ts₁ ++ t :: ts₂, isOkE (scanOne p pl r' t') = true)
    (hpriorT : ∀ t' ∈ ts₁, isOkE (scanOne p pl r t') = true)
    (he : scanOne p pl r t = .error e) :
    (∀ m, e = .client m → list_resources p pl = .error ⟨400, m⟩) ∧
    (∀ m, e = .other m → list_resources p pl = .error ⟨500, m⟩) ∧
    (∀ resp, list_resources p pl ≠ .ok resp) := by
  have hTerr : scanTypes p pl r (ts₁ ++ t :: ts₂) = .error e :=
    scanTypes_err p pl r ts₁ t ts₂ e hpriorT he
  have hRok : ∀ r' ∈ rs₁, isOkE (scanTypes p pl r' (ts₁ ++ t :: ts₂)) = true :=
    fun r' hr' => scanTypes_ok_of p pl r' _ (hpriorR r' hr')
  have hRerr : scanRegions p pl (ts₁ ++ t :: ts₂) (rs₁ ++ r :: rs₂) = .error e :=
    scanRegions_err p pl _ rs₁ r rs₂ e hRok hTerr
  have hmain : list_resources p pl = .error (httpOfPErr e) := by
    rw [list_resources, ht, hr, hRerr]
  refine ⟨?_, ?_, ?_⟩
  · intro m hm
    rw [hmain, hm]
    rfl
  · intro m hm
    rw [hmain, hm]
    rfl
  · intro resp hresp
    rw [hmain] at hresp
    exact absurd hresp (by simp)

/-- Witness for C6: a client error from the EC2 listing in the only
effective (region, type) pair turns the whole scan into an HTTP 400
failure carrying the provider's message. -/
theorem scan_fail_fast_witness :
    list_resources pScanFail plFailW = .error ⟨400, "AccessDenied"⟩ :=
  (scan_fail_fast pScanFail plFailW [] [] [] [] "r1" "ec2:instance"
    (.client "AccessDenied") rfl rfl (by simp) (by simp) rfl).1
    "AccessDenied" rfl

/-! Per-record inversion: where an emitted record came from. -/

theorem emitAll_ok_mem (pl : ListRequest) (mk : α → PResult ResourceRecord)
    (xs : List α) (l : List ResourceRecord) (h : emitAll pl mk xs = .ok l)
    (rec : ResourceRecord) (hrec : rec ∈ l) : ∃ x ∈ xs, mk x = .ok rec := by
  rw [emitAll_eq_filterE] at h
  cases hc : collectAll mk xs with
  | error e =>
    rw [hc] at h
    exact absurd h (by simp [filterE])
  | ok raws =>
    rw [hc] at h
    simp only [filterE] at h
    injection h with h
    subst h
    exact (collectAll_ok_mem mk xs raws hc rec).mp (List.mem_filter.mp hrec).1

theorem mkEc2_inv {p : Provider} {region : String} {inst : Ec2Instance}
    {rec : ResourceRecord} (h : mkEc2 p region inst = .ok rec) :
    rec.resource_type = "ec2:instance" ∧ rec.id = inst.instanceId := by
  rw [mkEc2] at h
  cases hid : p.getCallerIdentity with
  | error e => rw [hid] at h; exact absurd h (by simp)
  | ok a =>
    rw [hid] at h
    injection h with h
    subst h
    exact ⟨rfl, rfl⟩

theorem mkS3_inv {p : Provider} {region name : String}
    {rec : ResourceRecord} (h : mkS3 p region name = .ok rec) :
    rec.resource_type = "s3:bucket" ∧ rec.id = name ∧
    (isClientE (p.getBucketTagging name) = true → rec.tags = []) := by
  cases hbt : p.getBucketTagging name with
  | ok ts =>
    simp only [mkS3, liftTags, hbt] at h
    cases hid : p.getCallerIdentity with
    | error e => rw [hid] at h; exact absurd h (by simp)
    | ok a =>
      rw [hid] at h
      injection h with h
      subst h
      refine ⟨rfl, rfl, ?_⟩
      intro hc
      simp [isClientE] at hc
  | error pe =>
    cases pe with
    | client m =>
      simp only [mkS3, liftTags, hbt] at h
      cases hid : p.getCallerIdentity with
      | error e => rw [hid] at h; exact absurd h (by simp)
      | ok a =>
        rw [hid] at h
        injection h with h
        subst h
        exact ⟨rfl, rfl, fun _ => rfl⟩
    | other m =>
      simp only [mkS3, liftTags, hbt] at h
      exact absurd h (by simp)

theorem mkRds_inv {p : Provider} {region : String} {dbi : RdsDb}
    {rec : ResourceRecord} (h : mkRds p region dbi = .ok rec) :
    rec.resource_type = "rds:db" ∧ rec.id = dbi.dbInstanceIdentifier := by
  rw [mkRds] at h
  cases htg : p.listTagsForResource dbi.dbInstanceArn with
  | error e => rw [htg] at h; exact absurd h (by simp)
  | ok ts =>
    rw [htg] at h
    cases hid : p.getCallerIdentity with
    | error e => rw [hid] at h; exact absurd h (by simp)
    | ok a =>
      rw [hid] at h
      injection h with h
      subst h
      exact ⟨rfl, rfl⟩

theorem mkIam_inv {p : Provider} {region : String} {u : IamUser}
    {rec : ResourceRecord} (h : mkIam p region u = .ok rec) :
    rec.resource_type = "iam:user" ∧ rec.id = u.userName ∧
    (isClientE (p.listUserTags u.userName) = true → rec.tags = []) := by
  cases hbt : p.listUserTags u.userName with
  | ok ts =>
    simp only [mkIam, liftTags, hbt] at h
    cases hid : p.getCallerIdentity with
    | error e => rw [hid] at h; exact absurd h (by simp)
    | ok a =>
      rw [hid] at h
      injection h with h
      subst h
      refine ⟨rfl, rfl, ?_⟩
      intro hc
      simp [isClientE] at hc
  | error pe =>
    cases pe with
    | client m =>
      simp only [mkIam, liftTags, hbt] at h
      cases hid : p.getCallerIdentity with
      | error e => rw [hid] at h; exact absurd h (by simp)
      | ok a =>
        rw [hid] at h
        injection h with h
        subst h
        exact ⟨rfl, rfl, fun _ => rfl⟩
    | other m =>
      simp only [mkIam, liftTags, hbt] at h
      exact absurd h (by simp)

theorem scanOne_rec_inv (p : Provider) (pl : ListRequest) (region t : String)
    (lr : List ResourceRecord) (rec : ResourceRecord)
    (hsc : scanOne p pl region t = .ok lr) (hrec : rec ∈ lr) :
    (∃ insts, p.describeInstances region = .ok insts ∧
      ∃ i ∈ insts, mkEc2 p region i = .ok rec) ∨
    (∃ bs, p.listBuckets = .ok bs ∧ ∃ b ∈ bs, mkS3 p region b = .ok rec) ∨
    (∃ dbs, p.describeDbInstances region = .ok dbs ∧
      ∃ d ∈ dbs, mkRds p region d = .ok rec) ∨
    (∃ us, p.listUsers = .ok us ∧ ∃ u ∈ us, mkIam p region u = .ok rec) := by
  simp only [scanOne] at hsc
  split_ifs at hsc
  · cases hd : p.describeInstances region with
    | error e => rw [hd] at hsc; exact absurd hsc (by simp)
    | ok insts =>
      rw [hd] at hsc
      exact Or.inl ⟨insts, rfl, emitAll_ok_mem pl _ insts lr hsc rec hrec⟩
  · cases hd : p.listBuckets with
    | error e => rw [hd] at hsc; exact absurd hsc (by simp)
    | ok bs =>
      rw [hd] at hsc
      exact Or.inr (Or.inl ⟨bs, rfl, emitAll_ok_mem pl _ bs lr hsc rec hrec⟩)
  · cases hd : p.describeDbInstances region with
    | error e => rw [hd] at hsc; exact absurd hsc (by simp)
    | ok dbs =>
      rw [hd] at hsc
      exact Or.inr (Or.inr (Or.inl ⟨dbs, rfl, emitAll_ok_mem pl _ dbs lr hsc rec hrec⟩))
  · cases hd : p.listUsers with
    | error e => rw [hd] at hsc; exact absurd hsc (by simp)
    | ok us =>
      rw [hd] at hsc
      exact Or.inr (Or.inr (Or.inr ⟨us, rfl, emitAll_ok_mem pl _ us lr hsc rec hrec⟩))
  · injection hsc with hsc
    rw [← hsc] at hrec
    exact absurd hrec (by simp)

/-! Success of the scan under a benign provider. -/

theorem isOkE_iff {ε α : Type} (r : Except ε α) : isOkE r = true ↔ ∃ a, r = .ok a := by
  cases r <;> simp [isOkE]

theorem emitAll_ok_of (pl : ListRequest) (mk : α → PResult ResourceRecord) :
    ∀ (xs : List α), (∀ x ∈ xs, isOkE (mk x) = true) →
    isOkE (emitAll pl mk xs) = true := by
  intro xs
  induction xs with
  | nil => intro _; rfl
  | cons x xs ih =>
    intro h
    obtain ⟨r, hr⟩ := (isOkE_iff (mk x)).mp (h x (by simp))
    obtain ⟨rest, hrest⟩ := (isOkE_iff _).mp (ih (fun y hy => h y (by simp [hy])))
    simp [emitAll, hr, hrest, isOkE]

theorem mk_ok_of_benign {p : Provider} (hb : BenignProvider p) (region : String) :
    (∀ i : Ec2Instance, isOkE (mkEc2 p region i) = true) ∧
    (∀ b : String, isOkE (mkS3 p region b) = true) ∧
    (∀ d : RdsDb, isOkE (mkRds p region d) = true) ∧
    (∀ u : IamUser, isOkE (mkIam p region u) = true) := by
  obtain ⟨hec2, hs3l, hrdsl, husers, hrdst, hbt, hut, hid⟩ := hb
  obtain ⟨acct, hacct⟩ := (isOkE_iff _).mp hid
  refine ⟨?_, ?_, ?_, ?_⟩
  · intro i
    simp [mkEc2, hacct, isOkE]
  · intro b
    have hnb := hbt b
    cases hb2 : p.getBucketTagging b with
    | ok ts => simp [mkS3, liftTags, hb2, hacct, isOkE]
    | error pe =>
      cases pe with
      | client m => simp [mkS3, liftTags, hb2, hacct, isOkE]
      | other m => rw [hb2] at hnb; simp [notOtherE] at hnb
  · intro d
    obtain ⟨ts, hts⟩ := (isOkE_iff _).mp (hrdst d.dbInstanceArn)
    simp [mkRds, hts, hacct, isOkE]
  · intro u
    have hnb := hut u.userName
    cases hb2 : p.listUserTags u.userName with
    | ok ts => simp [mkIam, liftTags, hb2, hacct, isOkE]
    | error pe =>
      cases pe with
      | client m => simp [mkIam, liftTags, hb2, hacct, isOkE]
      | other m => rw [hb2] at hnb; simp [notOtherE] at hnb

theorem scanOne_ok_of_benign {p : Provider} (hb : BenignProvider p)
    (pl : ListRequest) (region t : String) :
    isOkE (scanOne p pl region t) = true := by
  obtain ⟨hmk1, hmk2, hmk3, hmk4⟩ := mk_ok_of_benign hb region
  obtain ⟨hec2, hs3l, hrdsl, husers, hrdst, hbt, hut, hid⟩ := hb
  simp only [scanOne]
  split_ifs
  · obtain ⟨insts, hi⟩ := (isOkE_iff _).mp (hec2 region)
    rw [hi]
    exact emitAll_ok_of pl _ insts (fun x _ => hmk1 x)
  · obtain ⟨bs, hi⟩ := (isOkE_iff _).mp hs3l
    rw [hi]
    exact emitAll_ok_of pl _ bs (fun x _ => hmk2 x)
  · obtain ⟨dbs, hi⟩ := (isOkE_iff _).mp (hrdsl region)
    rw [hi]
    exact emitAll_ok_of pl _ dbs (fun x _ => hmk3 x)
  · obtain ⟨us, hi⟩ := (isOkE_iff _).mp husers
    rw [hi]
    exact emitAll_ok_of pl _ us (fun x _ => hmk4 x)
  · rfl

/-- C3 as stated is false on the code in two ways: (a) for the
managed-database type the tag fetch is not guarded, so a client error
while fetching a database's tags aborts the whole scan (HTTP 400) rather
than degrading that record's tags; (b) the scanner copies the provider's
raw identifier verbatim, so a bucket listed with an empty name yields an
emitted record whose `id` is empty. -/
theorem scanner_invariant_cex :
    isClientE (pScanCexRds.listTagsForResource "arn1") = true ∧
    list_resources pScanCexRds plRdsCex = .error ⟨400, "tagfail"⟩ ∧
    list_resources pScanCexEmptyId plBucketCex =
      .ok ⟨1, [⟨"", "s3:bucket", "r1", "A", [], none⟩]⟩ :=
  ⟨rfl, rfl, rfl⟩

/-- C3 (amended): every ResourceRecord emitted by the scanner has a
resource_type drawn from the supported registry and an id copied from
the provider's raw record (hence non-empty whenever the provider lists
non-empty identifiers); tags are populated best-effort for the bucket
and identity-principal types only — a client error fetching those tags
degrades the record's tags to the empty map without aborting the record
or the scan (the scan succeeds whenever listings, identity and the
managed-database tag fetches succeed and bucket/user tag fetches fail at
worst with client errors) — while a tag-fetch failure for the
managed-database type aborts the scan. -/
theorem scanner_record_invariant :
    (∀ (p : Provider) (pl : ListRequest) (resp : ScanResponse),
      list_resources p pl = .ok resp → ∀ rec ∈ resp.resources,
        isSupported rec.resource_type = true ∧
        (RawIdsNonEmpty p → rec.id ≠ "") ∧
        (rec.resource_type = "s3:bucket" →
          isClientE (p.getBucketTagging rec.id) = true → rec.tags = []) ∧
        (rec.resource_type = "iam:user" →
          isClientE (p.listUserTags rec.id) = true → rec.tags = [])) ∧
    (∀ (p : Provider) (pl : ListRequest), BenignProvider p →
      isOkE (list_resources p pl) = true) := by
  constructor
  · intro p pl resp hok rec hrec
    have hm := list_resources_ok_inv p pl resp hok
    obtain ⟨hallR, hmemR⟩ := scanRegions_ok_inv p pl _ _ _ hm
    obtain ⟨region, hreg, lr, hlr, hinlr⟩ := (hmemR rec).mp hrec
    obtain ⟨hallT, hmemT⟩ := scanTypes_ok_inv p pl region _ _ hlr
    obtain ⟨rtype, hrt, lt, hlt, hinlt⟩ := (hmemT rec).mp hinlr
    rcases scanOne_rec_inv p pl region rtype lt rec hlt hinlt with
      ⟨insts, hl, i, hi, hmk⟩ | ⟨bs, hl, b, hbm, hmk⟩ |
      ⟨dbs, hl, d, hd, hmk⟩ | ⟨us, hl, u, hu, hmk⟩
    · obtain ⟨hrt', hid'⟩ := mkEc2_inv hmk
      refine ⟨by rw [hrt']; decide, ?_, ?_, ?_⟩
      · intro hids
        rw [hid']
        exact hids.1 region insts hl i hi
      · intro habs
        rw [hrt'] at habs
        exact absurd habs (by decide)
      · intro habs
        rw [hrt'] at habs
        exact absurd habs (by decide)
    · obtain ⟨hrt', hid', htags⟩ := mkS3_inv hmk
      refine ⟨by rw [hrt']; decide, ?_, ?_, ?_⟩
      · intro hids
        rw [hid']
        exact hids.2.1 bs hl b hbm
      · intro _ hc
        rw [hid'] at hc
        exact htags hc
      · intro habs
        rw [hrt'] at habs
        exact absurd habs (by decide)
    · obtain ⟨hrt', hid'⟩ := mkRds_inv hmk
      refine ⟨by rw [hrt']; decide, ?_, ?_, ?_⟩
      · intro hids
        rw [hid']
        exact hids.2.2.1 region dbs hl d hd
      · intro habs
        rw [hrt'] at habs
        exact absurd habs (by decide)
      · intro habs
        rw [hrt'] at habs
        exact absurd habs (by decide)
    · obtain ⟨hrt', hid', htags⟩ := mkIam_inv hmk
      refine ⟨by rw [hrt']; decide, ?_, ?_, ?_⟩
      · intro hids
        rw [hid']
        exact hids.2.2.2 us hl u hu
      · intro habs
        rw [hrt'] at habs
        exact absurd habs (by decide)
      · intro _ hc
        rw [hid'] at hc
        exact htags hc
  · intro p pl hb
    have hone : ∀ r' ∈ pyOrList pl.regions _default_regions,
        isOkE (scanTypes p pl r'
          (pyOrList pl.resource_types default_resource_types)) = true :=
      fun r' _ => scanTypes_ok_of p pl r' _
        (fun t _ => scanOne_ok_of_benign hb pl r' t)
    obtain ⟨l, hl⟩ := (isOkE_iff _).mp (scanRegions_ok_of p pl _ _ hone)
    rw [list_resources, hl]
    rfl

/-- Witness for C3 (amended): the bucket record emitted despite its
failed tag fetch has a supported type, a non-empty id (given the
provider's non-empty raw ids), and empty tags; and the healthy provider
is benign, so the scan succeeds. -/
theorem scanner_record_invariant_witness :
    (isSupported (⟨"b1", "s3:bucket", "us-east-1", "123456789012", [],
        none⟩ : ResourceRecord).resource_type = true ∧
      (RawIdsNonEmpty pScanW →
        (⟨"b1", "s3:bucket", "us-east-1", "123456789012", [],
          none⟩ : ResourceRecord).id ≠ "") ∧
      ((⟨"b1", "s3:bucket", "us-east-1", "123456789012", [],
          none⟩ : ResourceRecord).resource_type = "s3:bucket" →
        isClientE (pScanW.getBucketTagging
          (⟨"b1", "s3:bucket", "us-east-1", "123456789012", [],
            none⟩ : ResourceRecord).id) = true →
        (⟨"b1", "s3:bucket", "us-east-1", "123456789012", [],
          none⟩ : ResourceRecord).tags = []) ∧
      ((⟨"b1", "s3:bucket", "us-east-1", "123456789012", [],
          none⟩ : ResourceRecord).resource_type = "iam:user" →
        isClientE (pScanW.listUserTags
          (⟨"b1", "s3:bucket", "us-east-1", "123456789012", [],
            none⟩ : ResourceRecord).id) = true →
        (⟨"b1", "s3:bucket", "us-east-1", "123456789012", [],
          none⟩ : ResourceRecord).tags = [])) ∧
    isOkE (list_resources pScanW plAcctW) = true :=
  ⟨scanner_record_invariant.1 pScanW plAcctW
      ⟨3, [⟨"i-1", "ec2:instance", "us-east-1", "123456789012",
             [("Owner", "alice")], some "running"⟩,
           ⟨"i-2", "ec2:instance", "us-east-1", "123456789012", [],
             some "stopped"⟩,
           ⟨"b1", "s3:bucket", "us-east-1", "123456789012", [], none⟩]⟩
      rfl _ (by simp),
   scanner_record_invariant.2 pScanW plAcctW
     ⟨fun _ => rfl, rfl, fun _ => rfl, rfl, fun _ => rfl, fun _ => rfl,
      fun _ => rfl, rfl⟩⟩

/-! The scan never reads `account_ids`. -/

theorem keepRecord_congr (pl₁ pl₂ : ListRequest)
    (hs : pl₁.filter_scope = pl₂.filter_scope)
    (hk : pl₁.tag_key = pl₂.tag_key)
    (hv : pl₁.tag_value = pl₂.tag_value) :
    keepRecord pl₁ = keepRecord pl₂ := by
  funext ts
  rw [keepRecord, keepRecord, hs, hk, hv]

theorem emitAll_congr (pl₁ pl₂ : ListRequest)
    (hkeep : keepRecord pl₁ = keepRecord pl₂)
    (mk : α → PResult ResourceRecord) :
    ∀ xs : List α, emitAll pl₁ mk xs = emitAll pl₂ mk xs := by
  intro xs
  induction xs with
  | nil => rfl
  | cons x xs ih =>
    cases hmk : mk x <;> simp [emitAll, hmk, ih, hkeep]

theorem scanOne_congr (p : Provider) (pl₁ pl₂ : ListRequest)
    (hkeep : keepRecord pl₁ = keepRecord pl₂) (region t : String) :
    scanOne p pl₁ region t = scanOne p pl₂ region t := by
  simp only [scanOne]
  split_ifs
  · cases hd : p.describeInstances region <;> simp [emitAll_congr pl₁ pl₂ hkeep]
  · cases hd : p.listBuckets <;> simp [emitAll_congr pl₁ pl₂ hkeep]
  · cases hd : p.describeDbInstances region <;> simp [emitAll_congr pl₁ pl₂ hkeep]
  · cases hd : p.listUsers <;> simp [emitAll_congr pl₁ pl₂ hkeep]
  · rfl

theorem scanTypes_congr (p : Provider) (pl₁ pl₂ : ListRequest)
    (hkeep : keepRecord pl₁ = keepRecord pl₂) (region : String) :
    ∀ ts : List String, scanTypes p pl₁ region ts = scanTypes p pl₂ region ts := by
  intro ts
  induction ts with
  | nil => rfl
  | cons t ts ih =>
    simp only [scanTypes, scanOne_congr p pl₁ pl₂ hkeep region t, ih]

theorem scanRegions_congr (p : Provider) (pl₁ pl₂ : ListRequest)
    (hkeep : keepRecord pl₁ = keepRecord pl₂) (rtypes : List String) :
    ∀ rs : List String, scanRegions p pl₁ rtypes rs = scanRegions p pl₂ rtypes rs := by
  intro rs
  induction rs with
  | nil => rfl
  | cons r rs ih =>
    simp only [scanRegions, scanTypes_congr p pl₁ pl₂ hkeep r, ih]

theorem list_resources_congr (p : Provider) (pl₁ pl₂ : ListRequest)
    (hs : pl₁.filter_scope = pl₂.filter_scope)
    (hk : pl₁.tag_key = pl₂.tag_key)
    (hv : pl₁.tag_value = pl₂.tag_value)
    (ht : pl₁.resource_types = pl₂.resource_types)
    (hr : pl₁.regions = pl₂.regions) :
    list_resources p pl₁ = list_resources p pl₂ := by
  have hkeep := keepRecord_congr pl₁ pl₂ hs hk hv
  rw [list_resources, list_resources, ht, hr,
    scanRegions_congr p pl₁ pl₂ hkeep _ _]

/-- C9: the scan result does not depend on the `account_ids` field: for
any two scan requests identical except in `account_ids`, against the
same provider, `list_resources` produces the same result — the field is
accepted by the request model but never read while scanning. -/
theorem scan_ignores_account_ids (p : Provider) (pl : ListRequest)
    (a : Option (List String)) :
    list_resources p { pl with account_ids := a } = list_resources p pl :=
  list_resources_congr p _ _ rfl rfl rfl rfl rfl
